import Mathlib

/-!
Verification of the fixture-loading code in
application/export_import/load_form_data.py and the data migration in
application/dataentry/migrations/0060_form_migration_fix.py.

The Python code is shallowly embedded: pure string/path manipulation is
translated to executable Lean functions on String/List Char; the stateful
loaddata routine becomes an explicit state-passing evaluator that records an
event trace (find_fixtures calls, entering/leaving the
constraint-checks-disabled block, deserializer invocations, object saves,
constraint checks, sequence resets, count reports) together with counter
snapshots.  External collaborators (the serializer registry, the filesystem
glob, the database router, object saving, constraint checking) are supplied
by an explicit environment record, exactly at the call boundaries the Python
code uses them.
-/

/-- Python exceptions relevant to this code, carrying their message. -/
inductive PyError where
  | commandError (msg : String)
  | valueError (msg : String)
  | databaseError (msg : String)
  | otherError (msg : String)
deriving DecidableEq

/-- Splits a list of characters at every occurrence of the separator
character, like Python str.split with a single-character separator:
the result is always non-empty and keeps empty pieces. -/
def splitOnChar (sep : Char) : List Char → List (List Char)
  | [] => [[]]
  | c :: cs =>
      let r := splitOnChar sep cs
      if c = sep then [] :: r
      else
        match r with
        | h :: t => (c :: h) :: t
        | [] => [[c]]

/-- fixture_name.split (on a dot), as a list of strings. -/
def splitDots (s : String) : List String :=
  (splitOnChar '.' s.toList).map (fun cs => String.mk cs)

/-- Joins strings with a dot separator, like a Python join on a dot. -/
def joinDots : List String → String
  | [] => ""
  | [s] => s
  | s :: rest => s ++ "." ++ joinDots rest

/-- Joins strings with no separator, like a Python join on the empty
string (used in the unknown-serialization error message). -/
def joinAll : List String → String
  | [] => ""
  | s :: rest => s ++ joinAll rest

/-- Joins strings with a slash separator. -/
def joinSlashes : List String → String
  | [] => ""
  | [s] => s
  | s :: rest => s ++ "/" ++ joinSlashes rest

/-- fixture_name.rsplit on a dot with maxsplit 2: at most the two rightmost
dots split; with four or more dot-separated components the leading
components stay joined in the first part. -/
def rsplit2 (s : String) : List String :=
  match (splitDots s).reverse with
  | y :: x :: r :: v :: rs => [joinDots ((r :: v :: rs).reverse), x, y]
  | _ => splitDots s

/-- os.path.isabs for POSIX paths. -/
def isAbs (s : String) : Bool :=
  match s.toList with
  | c :: _ => c = '/'
  | [] => false

/-- os.path.basename for POSIX paths: the part after the last slash. -/
def baseName (s : String) : String :=
  String.mk ((splitOnChar '/' s.toList).getLastD [])

/-- Drops trailing occurrences of a character. -/
def dropTrailing (c : Char) (cs : List Char) : List Char :=
  ((cs.reverse).dropWhile (fun x => x = c)).reverse

/-- os.path.dirname for POSIX paths: everything up to the final slash, with
trailing slashes stripped unless the result consists only of slashes. -/
def dirName (s : String) : String :=
  let parts := (splitOnChar '/' s.toList).map (fun cs => String.mk cs)
  if parts.length ≤ 1 then ""
  else
    let headPath := (joinSlashes parts.dropLast).toList ++ ['/']
    if headPath.all (fun c => c = '/') then String.mk headPath
    else String.mk (dropTrailing '/' headPath)

/-- os.path.join for POSIX paths, two arguments. -/
def joinPath (a b : String) : String :=
  if isAbs b then b
  else if a = "" then b
  else if (a.toList.getLastD ' ') = '/' then a ++ b
  else a ++ "/" ++ b

/-- os.path.normpath for POSIX paths: drops empty and single-dot
components, resolves double-dot components where possible, and keeps the
leading slash (a leading double slash is kept as such). -/
def normpath (p : String) : String :=
  if p = "" then "." else
  let abs := isAbs p
  let comps := ((splitOnChar '/' p.toList).map (fun cs => String.mk cs)).filter
    (fun c => !(c = "") && !(c = "."))
  let newComps := comps.foldl (fun acc c =>
      if c ≠ ".." then acc ++ [c]
      else if !abs ∧ acc = [] then acc ++ [c]
      else if acc.getLastD "" = ".." ∧ acc ≠ [] then acc ++ [c]
      else if acc = [] then acc
      else acc.dropLast) []
  let slashes :=
    if p.toList.take 3 = ['/', '/', '/'] then "/"
    else if p.toList.take 2 = ['/', '/'] then "//"
    else if abs then "/" else ""
  let r := slashes ++ joinSlashes newComps
  if r = "" then "." else r

/-- glob.escape over the magic characters of the glob module: each of the
characters star, question mark and opening bracket is wrapped in brackets. -/
def globEscapeChars : List Char → List Char
  | [] => []
  | c :: cs =>
      if c = '*' ∨ c = '?' ∨ c = '[' then '[' :: c :: ']' :: globEscapeChars cs
      else c :: globEscapeChars cs

/-- glob_escape from the source (POSIX: splitdrive yields an empty drive). -/
def glob_escape (s : String) : String := String.mk (globEscapeChars s.toList)

/-- humanize from the source, with the surrounding quote characters of the
original message left out. -/
def humanize (dirname : String) : String :=
  if dirname = "" then "absolute path" else dirname

/-- Tags for the opener callables stored in self.compression_formats. -/
inductive Opener where
  | plainOpen
  | gzipFile
  | singleZipReader
  | bz2File
deriving DecidableEq

/-- self.compression_formats as built in loaddata: an insertion-ordered
dict from optional compression suffix to opener and mode, with the bz2
entry present exactly when the bz2 module imported. -/
def compression_formats (hasBz2 : Bool) : List (Option String × Opener × String) :=
  [(none, Opener.plainOpen, "rb"),
   (some "gz", Opener.gzipFile, "rb"),
   (some "zip", Opener.singleZipReader, "r")] ++
  (if hasBz2 then [(some "bz2", Opener.bz2File, "r")] else [])

/-- The keys of self.compression_formats, in dict insertion order. -/
def compressionFormatKeys (hasBz2 : Bool) : List (Option String) :=
  (compression_formats hasBz2).map (fun e => e.1)

/-- The parts of parse_name after the compression-format check: the result
of rsplit with maxsplit 2, with the last part removed when it is a key of
self.compression_formats and more than one part is present. -/
def strippedParts (hasBz2 : Bool) (fixture_name : String) : List String :=
  let parts := rsplit2 fixture_name
  if 1 < parts.length ∧ some (parts.getLastD "") ∈ compressionFormatKeys hasBz2
  then parts.dropLast else parts

/-- The compression format recognized by parse_name, when any. -/
def cmpSuffix (hasBz2 : Bool) (fixture_name : String) : Option String :=
  let parts := rsplit2 fixture_name
  if 1 < parts.length ∧ some (parts.getLastD "") ∈ compressionFormatKeys hasBz2
  then some (parts.getLastD "") else none

/-- parse_name from the source: splits a fixture name into name,
serialization format and compression format, raising CommandError when more
than one part remains and the last one is not a registered serialization
format.  The registered serialization formats are those of the framework
registry, passed in explicitly. -/
def parse_name (serialization_formats : List String) (hasBz2 : Bool)
    (fixture_name : String) :
    Except PyError (String × Option String × Option String) :=
  let parts := strippedParts hasBz2 fixture_name
  if 1 < parts.length then
    if parts.getLastD "" ∈ serialization_formats then
      Except.ok (joinDots parts.dropLast, some (parts.getLastD ""), cmpSuffix hasBz2 fixture_name)
    else
      Except.error (PyError.commandError
        ("Problem installing fixture " ++ joinAll parts.dropLast ++ ": " ++
         parts.getLastD "" ++ " is not a known serialization format."))
  else
    Except.ok (joinDots parts, none, cmpSuffix hasBz2 fixture_name)

/-- Forgets the error of an Except value. -/
def exceptToOption {ε α : Type} : Except ε α → Option α
  | Except.ok a => some a
  | Except.error _ => none

/-- Modelled from the spec (section 6, fixture file naming convention): the
claimed splitting convention over the full list of dot-separated components
of the name: the last component is taken as the compression format only if
it is a key of the compression dict, then the new last component is taken
as the serialization format only if it is registered (otherwise no triple
is produced), and everything remaining, joined by dots, is the name. -/
def parseNameSpec (serialization_formats : List String) (hasBz2 : Bool)
    (fixture_name : String) :
    Option (String × Option String × Option String) :=
  let comps := splitDots fixture_name
  let cmp : Option String :=
    if 1 < comps.length ∧ some (comps.getLastD "") ∈ compressionFormatKeys hasBz2
    then some (comps.getLastD "") else none
  let comps := if 1 < comps.length ∧ some (comps.getLastD "") ∈ compressionFormatKeys hasBz2
    then comps.dropLast else comps
  if 1 < comps.length then
    if comps.getLastD "" ∈ serialization_formats then
      some (joinDots comps.dropLast, some (comps.getLastD ""), cmp)
    else none
  else some (joinDots comps, none, cmp)

/-- A zip archive, as its member list: names paired with contents. -/
def ZipArchive : Type := List (String × String)

instance : DecidableEq ZipArchive := by
  unfold ZipArchive
  infer_instance

/-- namelist of a zip archive. -/
def zipNamelist (archive : ZipArchive) : List String :=
  (archive : List (String × String)).map (fun e => e.1)

/-- zipfile.ZipFile.read for a named member. -/
def zipFileRead (archive : ZipArchive) (name : String) : Option String :=
  ((archive : List (String × String)).find? (fun e => e.1 = name)).map (fun e => e.2)

/-- SingleZipReader holds the archive it was successfully constructed on. -/
structure SingleZipReader where
  archive : ZipArchive
deriving DecidableEq

/-- The SingleZipReader constructor: after the ZipFile init it raises
ValueError unless the name list has exactly one entry. -/
def SingleZipReader.init (archive : ZipArchive) : Except PyError SingleZipReader :=
  if (zipNamelist archive).length ≠ 1 then
    Except.error (PyError.valueError "Zip-compressed fixtures must contain one file.")
  else Except.ok ⟨archive⟩

/-- SingleZipReader.read: reads the first (only) member of the archive. -/
def SingleZipReader.read (r : SingleZipReader) : Option String :=
  zipFileRead r.archive ((zipNamelist r.archive).headD "")

/-- The record of one invocation of FormMigration.migrate: the external
callee is modelled by the argument tuple it receives. -/
structure FormMigrationCall (α β : Type) where
  apps : α
  schemaEditor : β
  fileName : String

/-- FormMigration.migrate lives outside this repository; the model records
the call it receives. -/
def FormMigration.migrate {α β : Type} (apps : α) (schema_editor : β)
    (fileName : String) : FormMigrationCall α β :=
  ⟨apps, schema_editor, fileName⟩

/-- migrate_forms from the migration file: the RunPython callback, taking
exactly the two arguments the migration runner supplies. -/
def migrate_forms {α β : Type} (apps : α) (schema_editor : β) :
    FormMigrationCall α β :=
  FormMigration.migrate apps schema_editor "form_data_20180816.json"

/-- A migration operation, as used by the migration file. -/
inductive MigrationOperation (α β : Type) where
  | runPython (callback : α → β → FormMigrationCall α β)

/-- The operations list of the migration class. -/
def Migration.operations {α β : Type} : List (MigrationOperation α β) :=
  [MigrationOperation.runPython migrate_forms]

/-- An ORM model class, carrying the metadata fields the loader reads. -/
structure ModelClass where
  appLabel : String
  objectName : String
  dbTable : String
  appConfig : String
deriving DecidableEq

/-- A deserialized model instance: its class and primary key. -/
structure Obj where
  cls : ModelClass
  pk : Nat
deriving DecidableEq

/-- The fields of the LoadFormData instance that load sets before calling
loaddata (self.using, self.verbosity, self.ignore, the exclusion sets) plus
the settings value BASE_DIR. -/
structure Loader where
  usingDb : String
  verbosity : Nat
  ignore : Bool
  excludedApps : List String
  excludedModels : List ModelClass
  baseDir : String
deriving DecidableEq

/-- The external collaborators of the loader: serializer registry, bz2
availability, fixture directories (self.fixture_dirs is computed from the
app registry and settings), the filesystem glob, the deserializer, the
database router, object saving, constraint checking and sequence SQL. -/
structure Env where
  serialization_formats : List String
  hasBz2 : Bool
  fixtureDirs : List String
  glob : String → List String
  deserialize : String → String → List Obj
  allowMigrateModel : String → ModelClass → Bool
  saveResult : String → Obj → Option String
  openResult : String → Option String
  checkConstraintsResult : List String → Option String
  sequenceResetSql : List ModelClass → List String

/-- DEFAULT_DB_ALIAS of the framework. -/
def DEFAULT_DB_ALIAS : String := "default"

/-- LoadFormData.base_form_data_name: BASE_DIR plus the fixture path. -/
def baseFormDataName (baseDir : String) : String :=
  baseDir ++ "/fixtures/initial-required-data/form_data"

/-- LoadFormData.basic_form_data_file: the basic form data fixture. -/
def basicFormDataFile (baseDir : String) : String :=
  baseFormDataName baseDir ++ ".json"

/-- The directory/name resolution of find_fixtures: an absolute fixture
name fixes the single directory containing it; a relative name with a path
separator (after normpath) appends its directory part to every fixture
directory; otherwise the fixture directories are searched as they are. -/
def resolveDirs (env : Env) (fixture_name : String) : List String × String :=
  if isAbs fixture_name then
    ([dirName fixture_name], baseName fixture_name)
  else if (normpath fixture_name).toList.contains '/' then
    (env.fixtureDirs.map (fun d => joinPath d (dirName fixture_name)), baseName fixture_name)
  else (env.fixtureDirs, fixture_name)

/-- Joins one (database, serializer, compression) combination into a target
suffix, keeping only the truthy extensions. -/
def comboJoin : Option String × Option String × Option String → String
  | (db, sf, cf) =>
      joinDots ((([db, sf, cf].filterMap id).filter (fun e => !(e = ""))))

/-- The candidate suffixes of find_fixtures: the product of the databases
list (self.using then None), the serializer formats (the registry when no
format was parsed from the label) and the compression formats (all dict
keys when none was parsed). -/
def mkSuffixes (loader : Loader) (env : Env) (serFmt cmpFmt : Option String) :
    List String :=
  let databases : List (Option String) := [some loader.usingDb, none]
  let cmpFmts : List (Option String) :=
    match cmpFmt with
    | none => compressionFormatKeys env.hasBz2
    | some c => [some c]
  let serFmts : List (Option String) :=
    match serFmt with
    | none => env.serialization_formats.map some
    | some f => [some f]
  (databases.flatMap (fun db => serFmts.flatMap (fun sf => cmpFmts.map (fun cf => (db, sf, cf))))).map comboJoin

/-- The target file names of find_fixtures for one fixture name. -/
def targetsFor (loader : Loader) (env : Env) (fixture_name : String)
    (serFmt cmpFmt : Option String) : List String :=
  (mkSuffixes loader env serFmt cmpFmt).map (fun suffix => fixture_name ++ "." ++ suffix)

/-- The matching fixture files of one directory: the glob candidates for
the escaped directory/name pattern whose basename is one of the targets,
as (file, directory, name) triples. -/
def dirMatches (env : Env) (targets : List String) (fixture_name dir : String) :
    List (String × String × String) :=
  ((env.glob (glob_escape (joinPath dir fixture_name) ++ "*")).filter
    (fun cand => targets.contains (baseName cand))).map
    (fun cand => (cand, dir, fixture_name))

/-- The directory loop of find_fixtures: raises CommandError at the first
directory holding more than one matching fixture file, and otherwise
accumulates the matches of every directory. -/
def findInDirs (env : Env) (targets : List String) (fixture_name : String) :
    List String → Except PyError (List (String × String × String))
  | [] => Except.ok []
  | dir :: rest =>
      let inDir := dirMatches env targets fixture_name dir
      if 1 < inDir.length then
        Except.error (PyError.commandError
          ("Multiple fixtures named " ++ fixture_name ++ " in " ++ humanize dir ++ ". Aborting."))
      else
        match findInDirs env targets fixture_name rest with
        | Except.error e => Except.error e
        | Except.ok fs => Except.ok (inDir ++ fs)

/-- find_fixtures from the source: parses the label, resolves directories,
builds the target names, collects per-directory matches, and raises
CommandError when nothing was found. -/
def find_fixtures (loader : Loader) (env : Env) (fixture_label : String) :
    Except PyError (List (String × String × String)) :=
  match parse_name env.serialization_formats env.hasBz2 fixture_label with
  | Except.error e => Except.error e
  | Except.ok (fixture_name, serFmt, cmpFmt) =>
      let resolved := resolveDirs env fixture_name
      let targets := targetsFor loader env resolved.2 serFmt cmpFmt
      match findInDirs env targets resolved.2 resolved.1 with
      | Except.error e => Except.error e
      | Except.ok files =>
          if files = [] then
            Except.error (PyError.commandError
              ("No fixture named " ++ resolved.2 ++ " found."))
          else Except.ok files

/-- The observable events of one loaddata run, in program order. -/
inductive Event where
  | findFixturesCall (label : String)
  | enterDisabled
  | deserializeCall (label : String) (serFmt : String) (file : String)
  | saveObj (o : Obj)
  | exitDisabled
  | checkConstraints (tables : List String)
  | resetSequences (sql : List String)
  | report (loaded : Nat) (fixtureObjects : Nat) (fixtures : Nat)
  | warnZeroObjects (name : String)
deriving DecidableEq

/-- The mutable counters and model set of loaddata. -/
structure LoadState where
  fixtureCount : Nat
  loadedObjectCount : Nat
  fixtureObjectCount : Nat
  models : List ModelClass
deriving DecidableEq

/-- self.models.add: Python set insertion, as insert-if-absent. -/
def insertModel (m : ModelClass) (ms : List ModelClass) : List ModelClass :=
  if m ∈ ms then ms else ms ++ [m]

/-- A counter snapshot: (fixture_count, loaded_object_count,
fixture_object_count). -/
def Snap : Type := Nat × Nat × Nat

instance : DecidableEq Snap := by
  unfold Snap
  infer_instance

/-- The snapshot of the current counters. -/
def cnt (st : LoadState) : Snap :=
  (st.fixtureCount, st.loadedObjectCount, st.fixtureObjectCount)

/-- Componentwise order on counter snapshots. -/
def snapLe (s t : Snap) : Prop :=
  s.1 ≤ t.1 ∧ s.2.1 ≤ t.2.1 ∧ s.2.2 ≤ t.2.2

instance (s t : Snap) : Decidable (snapLe s t) := by
  unfold snapLe
  infer_instance

/-- The loaded count never exceeds the fixture-object count. -/
def goodSnap (s : Snap) : Prop := s.2.1 ≤ s.2.2

/-- The outcome of the object loop of load_label for one fixture file. -/
structure ObjsOut where
  objectsIn : Nat
  loadedIn : Nat
  models : List ModelClass
  events : List Event
  err : Option PyError

/-- The object loop of load_label: every deserialized object counts toward
objects_in_fixture; excluded objects are skipped; router-allowed objects
count toward loaded_objects_in_fixture, add their class to self.models and
are saved, a database error during save aborting the loop with the
decorated message. -/
def runObjects (loader : Loader) (env : Env) :
    List Obj → Nat → Nat → List ModelClass → ObjsOut
  | [], objectsIn, loadedIn, ms => ⟨objectsIn, loadedIn, ms, [], none⟩
  | o :: rest, objectsIn, loadedIn, ms =>
      if o.cls.appConfig ∈ loader.excludedApps ∨ o.cls ∈ loader.excludedModels then
        runObjects loader env rest (objectsIn + 1) loadedIn ms
      else if env.allowMigrateModel loader.usingDb o.cls then
        match env.saveResult loader.usingDb o with
        | none =>
            let r := runObjects loader env rest (objectsIn + 1) (loadedIn + 1)
              (insertModel o.cls ms)
            ⟨r.objectsIn, r.loadedIn, r.models, Event.saveObj o :: r.events, r.err⟩
        | some msg =>
            ⟨objectsIn + 1, loadedIn + 1, insertModel o.cls ms, [Event.saveObj o],
             some (PyError.databaseError
               ("Could not load " ++ o.cls.appLabel ++ "." ++ o.cls.objectName ++
                "(pk=" ++ toString o.pk ++ "): " ++ msg))⟩
      else runObjects loader env rest (objectsIn + 1) loadedIn ms

/-- The outcome of a load step: its events, its counter snapshots, the
state it leaves behind and the exception it raises, if any. -/
structure StepOut where
  events : List Event
  snaps : List Snap
  st : LoadState
  err : Option PyError

/-- The re-raise decoration of load_label: a non-CommandError exception
raised while installing a fixture file gets the file name prepended. -/
def wrapFixtureError (file : String) : PyError → PyError
  | PyError.commandError m => PyError.commandError m
  | PyError.valueError m =>
      PyError.valueError ("Problem installing fixture " ++ file ++ ": " ++ m)
  | PyError.databaseError m =>
      PyError.databaseError ("Problem installing fixture " ++ file ++ ": " ++ m)
  | PyError.otherError m =>
      PyError.otherError ("Problem installing fixture " ++ file ++ ": " ++ m)

/-- The serialization-format override of load_label: the format passed to
the deserializer is json for the basic form data file and form_data_tag
for every other label, whatever was parsed from the file name. -/
def serFmtFor (loader : Loader) (fixture_label : String) : String :=
  if fixture_label = basicFormDataFile loader.baseDir then "json"
  else "form_data_tag"

/-- The body of load_label for one (file, dir, name) triple: parse the
basename (its serializer suffix is discarded), pick the opener, override
the serialization format from the fixture label alone, open the file, bump
fixture_count, deserialize, run the object loop, add the per-fixture
counters to the totals, and warn when the fixture held no objects. -/
def loadFixtureFile (loader : Loader) (env : Env) (fixture_label : String)
    (st : LoadState) (file : String) (name : String) : StepOut :=
  match parse_name env.serialization_formats env.hasBz2 (baseName file) with
  | Except.error e => ⟨[], [], st, some e⟩
  | Except.ok _parsed =>
      let serFmt := serFmtFor loader fixture_label
      match env.openResult file with
      | some m => ⟨[], [], st, some (PyError.otherError m)⟩
      | none =>
          let st1 : LoadState := { st with fixtureCount := st.fixtureCount + 1 }
          let objs := env.deserialize serFmt file
          let r := runObjects loader env objs 0 0 st1.models
          match r.err with
          | some e =>
              ⟨Event.deserializeCall fixture_label serFmt file :: r.events,
               [cnt st1], { st1 with models := r.models },
               some (wrapFixtureError file e)⟩
          | none =>
              let st2 : LoadState :=
                { st1 with
                  models := r.models,
                  loadedObjectCount := st1.loadedObjectCount + r.loadedIn,
                  fixtureObjectCount := st1.fixtureObjectCount + r.objectsIn }
              ⟨Event.deserializeCall fixture_label serFmt file :: r.events ++
                 (if r.objectsIn = 0 then [Event.warnZeroObjects name] else []),
               [cnt st1, cnt st2], st2, none⟩

/-- The loop of load_label over the fixture files found for one label. -/
def loadFixtureFiles (loader : Loader) (env : Env) (fixture_label : String) :
    List (String × String × String) → LoadState → StepOut
  | [], st => ⟨[], [], st, none⟩
  | (file, _dir, name) :: rest, st =>
      let out := loadFixtureFile loader env fixture_label st file name
      match out.err with
      | some _ => out
      | none =>
          let out2 := loadFixtureFiles loader env fixture_label rest out.st
          ⟨out.events ++ out2.events, out.snaps ++ out2.snaps, out2.st, out2.err⟩

/-- load_label from the source: find the fixture files of the label and
install each of them. -/
def load_label (loader : Loader) (env : Env) (fixture_label : String)
    (st : LoadState) : StepOut :=
  match find_fixtures loader env fixture_label with
  | Except.error e => ⟨[Event.findFixturesCall fixture_label], [], st, some e⟩
  | Except.ok files =>
      let out := loadFixtureFiles loader env fixture_label files st
      ⟨Event.findFixturesCall fixture_label :: out.events, out.snaps, out.st, out.err⟩

/-- The loop of loaddata over the fixture labels, inside the
constraint-checks-disabled block. -/
def loadLabels (loader : Loader) (env : Env) :
    List String → LoadState → StepOut
  | [], st => ⟨[], [], st, none⟩
  | label :: rest, st =>
      let out := load_label loader env label st
      match out.err with
      | some _ => out
      | none =>
          let out2 := loadLabels loader env rest out.st
          ⟨out.events ++ out2.events, out.snaps ++ out2.snaps, out2.st, out2.err⟩

/-- The early bail-out loop of loaddata: call find_fixtures on each label
until one yields a truthy (non-empty) list; the for-else return fires when
no label does.  The third component tells whether the loop broke out. -/
def earlyLoop (loader : Loader) (env : Env) :
    List String → List Event × Option PyError × Bool
  | [] => ([], none, false)
  | label :: rest =>
      match find_fixtures loader env label with
      | Except.error e => ([Event.findFixturesCall label], some e, false)
      | Except.ok files =>
          if files.length ≠ 0 then ([Event.findFixturesCall label], none, true)
          else
            let r := earlyLoop loader env rest
            (Event.findFixturesCall label :: r.1, r.2.1, r.2.2)

/-- The outcome of one loaddata call. -/
structure RunResult where
  events : List Event
  snaps : List Snap
  finalState : LoadState
  err : Option PyError
  earlyReturn : Bool

/-- loaddata from the source: reset the counters, build the format tables,
bail out early when no label yields fixtures, load every label inside the
constraint-checks-disabled block (the block is left even when an exception
propagates), re-check constraints on the tables of the loaded models with
the decorated message on failure, reset sequences when at least one object
was loaded and the reset SQL is non-empty, and report counts at verbosity
one or higher. -/
def loaddata (loader : Loader) (env : Env) (fixture_labels : List String) :
    RunResult :=
  let st0 : LoadState := ⟨0, 0, 0, []⟩
  let pre := earlyLoop loader env fixture_labels
  match pre.2.1 with
  | some e => ⟨pre.1, [cnt st0], st0, some e, false⟩
  | none =>
      if pre.2.2 = false then ⟨pre.1, [cnt st0], st0, none, true⟩
      else
        let out := loadLabels loader env fixture_labels st0
        match out.err with
        | some e =>
            ⟨pre.1 ++ [Event.enterDisabled] ++ out.events ++ [Event.exitDisabled],
             cnt st0 :: out.snaps, out.st, some e, false⟩
        | none =>
            let tables := out.st.models.map (fun m => m.dbTable)
            match env.checkConstraintsResult tables with
            | some m =>
                ⟨pre.1 ++ [Event.enterDisabled] ++ out.events ++
                   [Event.exitDisabled, Event.checkConstraints tables],
                 cnt st0 :: out.snaps, out.st,
                 some (PyError.otherError ("Problem installing fixtures: " ++ m)), false⟩
            | none =>
                let resetEvs :=
                  if 0 < out.st.loadedObjectCount then
                    (if env.sequenceResetSql out.st.models ≠ [] then
                      [Event.resetSequences (env.sequenceResetSql out.st.models)]
                     else [])
                  else []
                let reportEvs :=
                  if 1 ≤ loader.verbosity then
                    [Event.report out.st.loadedObjectCount out.st.fixtureObjectCount
                      out.st.fixtureCount]
                  else []
                ⟨pre.1 ++ [Event.enterDisabled] ++ out.events ++
                   [Event.exitDisabled, Event.checkConstraints tables] ++
                   resetEvs ++ reportEvs,
                 cnt st0 :: out.snaps, out.st, none, false⟩

/-- load from the source: build a loader with verbosity 0, the default
database and empty exclusion sets, load the basic form data fixture, then
load one per-tag fixture label for every FormType with tag_enabled, when
any exist.  The form types come from the database, hence from the
environment. -/
def load (env : Env) (baseDir : String) (formTypes : List (String × Bool)) :
    RunResult × Option RunResult :=
  let loader : Loader := ⟨DEFAULT_DB_ALIAS, 0, false, [], [], baseDir⟩
  let r1 := loaddata loader env [basicFormDataFile baseDir]
  match r1.err with
  | some _ => (r1, none)
  | none =>
      let labels := ((formTypes.filter (fun p => p.2)).map
        (fun p => baseFormDataName baseDir ++ "_" ++ p.1 ++ ".json"))
      if 0 < labels.length then (r1, some (loaddata loader env labels))
      else (r1, none)

/-- C4: the loader recognizes exactly the compression formats no
compression (key None, plain open), gz (gzip) and zip (single-file
archives), plus bz2 exactly when the bz2 module imported; no other
compression suffix is a key of the dict. -/
theorem compression_formats_exact (b : Bool) (s : String) :
    (none ∈ compressionFormatKeys b) ∧
    ((compression_formats b).find? (fun e => e.1 = none) =
      some (none, Opener.plainOpen, "rb")) ∧
    ((compression_formats b).find? (fun e => e.1 = some "gz") =
      some (some "gz", Opener.gzipFile, "rb")) ∧
    ((compression_formats b).find? (fun e => e.1 = some "zip") =
      some (some "zip", Opener.singleZipReader, "r")) ∧
    ((compression_formats b).find? (fun e => e.1 = some "bz2") =
      if b then some (some "bz2", Opener.bz2File, "r") else none) ∧
    (some s ∈ compressionFormatKeys b ↔
      s = "gz" ∨ s = "zip" ∨ (s = "bz2" ∧ b = true)) := by
  cases b <;>
    refine ⟨by decide, by decide, by decide, by decide, by decide, ?_⟩ <;>
    simp [compressionFormatKeys, compression_formats]

/-- C5: the SingleZipReader constructor raises ValueError exactly when the
archive's name list does not have length one, and reading a successfully
constructed single-member archive yields that member's content. -/
theorem singleZipReader_single_file :
    (∀ archive : ZipArchive,
      (∃ m, SingleZipReader.init archive = Except.error (PyError.valueError m)) ↔
        (zipNamelist archive).length ≠ 1) ∧
    (∀ n c : String,
      SingleZipReader.init [(n, c)] = Except.ok ⟨[(n, c)]⟩ ∧
      SingleZipReader.read ⟨[(n, c)]⟩ = some c) := by
  constructor
  · intro archive
    constructor
    · rintro ⟨m, hm⟩
      intro h
      unfold SingleZipReader.init at hm
      rw [if_neg (by simp [h])] at hm
      exact Except.noConfusion hm
    · intro h
      exact ⟨_, by unfold SingleZipReader.init; rw [if_pos h]⟩
  · intro n c
    constructor
    · unfold SingleZipReader.init
      rw [if_neg (by simp [zipNamelist])]
    · simp [SingleZipReader.read, zipFileRead, zipNamelist, List.find?]

/-- C8: the migration's RunPython callback takes exactly the two arguments
the migration runner supplies and always invokes FormMigration.migrate
with the fixed fixture filename form_data_20180816.json. -/
theorem migrate_forms_fixed_filename {α β : Type} (apps : α) (schema_editor : β) :
    migrate_forms apps schema_editor =
      FormMigration.migrate apps schema_editor "form_data_20180816.json" ∧
    (migrate_forms apps schema_editor).fileName = "form_data_20180816.json" ∧
    (Migration.operations : List (MigrationOperation α β)) =
      [MigrationOperation.runPython migrate_forms] :=
  ⟨rfl, rfl, rfl⟩

/-- C6: whenever, after stripping a recognized compression suffix, more
than one part of the fixture name remains and the last part is not a
registered serialization format, parse_name raises a CommandError naming
that part as not a known serialization format. -/
theorem parse_name_unknown_serialization (fmts : List String) (b : Bool)
    (s : String) (h1 : 1 < (strippedParts b s).length)
    (h2 : (strippedParts b s).getLastD "" ∉ fmts) :
    parse_name fmts b s = Except.error (PyError.commandError
      ("Problem installing fixture " ++ joinAll (strippedParts b s).dropLast ++
       ": " ++ (strippedParts b s).getLastD "" ++
       " is not a known serialization format.")) := by
  unfold parse_name
  rw [if_pos h1, if_neg h2]

/-- Witness for C6 at the fixture name a.b with registry json. -/
theorem parse_name_unknown_serialization_witness :
    1 < (strippedParts true "a.b").length ∧
    (strippedParts true "a.b").getLastD "" ∉ ["json"] ∧
    parse_name ["json"] true "a.b" = Except.error (PyError.commandError
      ("Problem installing fixture " ++ joinAll (strippedParts true "a.b").dropLast ++
       ": " ++ (strippedParts true "a.b").getLastD "" ++
       " is not a known serialization format.")) :=
  ⟨by decide, by decide,
   parse_name_unknown_serialization ["json"] true "a.b" (by decide) (by decide)⟩

/-- Counterexample to C3 as stated: the fixture name a.b has no recognized
suffixes (b is neither a compression key nor in the registry json), yet
parse_name does not yield (a.b, None, None): it raises CommandError. -/
theorem parse_name_no_suffix_counterexample :
    parse_name ["json"] true "a.b" = Except.error (PyError.commandError
      "Problem installing fixture a: b is not a known serialization format.") ∧
    parse_name ["json"] true "a.b" ≠
      Except.ok ("a.b", (none : Option String), (none : Option String)) := by
  constructor
  · rfl
  · intro h
    rw [show parse_name ["json"] true "a.b" = Except.error (PyError.commandError
      "Problem installing fixture a: b is not a known serialization format.") from rfl] at h
    exact Except.noConfusion h

lemma joinDots_cons (a : String) (t : List String) (h : t ≠ []) :
    joinDots (a :: t) = a ++ "." ++ joinDots t := by
  cases t with
  | nil => exact absurd rfl h
  | cons b u => rfl

lemma joinDots_concat (l : List String) (x : String) (h : l ≠ []) :
    joinDots (l ++ [x]) = joinDots l ++ "." ++ x := by
  induction l with
  | nil => exact absurd rfl h
  | cons a t ih =>
    cases t with
    | nil => rfl
    | cons b u =>
      have h1 : joinDots ((a :: b :: u) ++ [x]) =
          a ++ "." ++ joinDots ((b :: u) ++ [x]) :=
        joinDots_cons a ((b :: u) ++ [x]) (by simp)
      rw [h1, ih (by simp), joinDots_cons a (b :: u) (by simp)]
      simp [String.append_assoc]

lemma joinDots_snoc3 (A : List String) (v r x : String) :
    joinDots (A ++ [v, r, x]) = joinDots (A ++ [v, r]) ++ "." ++ x := by
  have h1 : A ++ [v, r, x] = (A ++ [v, r]) ++ [x] := by simp
  rw [h1, joinDots_concat _ _ (by simp)]

lemma parse_name_spec_eq (fmts : List String) (b : Bool) (s : String) :
    exceptToOption (parse_name fmts b s) = parseNameSpec fmts b s := by
  have hco : splitDots s = ((splitDots s).reverse).reverse :=
    (List.reverse_reverse _).symm
  rcases hrev : (splitDots s).reverse with _ | ⟨y, _ | ⟨x, _ | ⟨r, _ | ⟨v, rs⟩⟩⟩⟩
  · have hc : splitDots s = [] := by rw [hco, hrev]; rfl
    simp [parse_name, parseNameSpec, strippedParts, cmpSuffix, rsplit2,
      exceptToOption, hrev, hc]
  · have hc : splitDots s = [y] := by rw [hco, hrev]; rfl
    simp [parse_name, parseNameSpec, strippedParts, cmpSuffix, rsplit2,
      exceptToOption, hrev, hc]
  · have hc : splitDots s = [x, y] := by rw [hco, hrev]; rfl
    simp only [parse_name, parseNameSpec, strippedParts, cmpSuffix, rsplit2,
      hrev, hc]
    split_ifs <;> simp_all [exceptToOption]
  · have hc : splitDots s = [r, x, y] := by rw [hco, hrev]; rfl
    simp only [parse_name, parseNameSpec, strippedParts, cmpSuffix, rsplit2,
      hrev, hc]
    split_ifs <;> simp_all [exceptToOption]
  · have hc : splitDots s = ((r :: v :: rs).reverse ++ [x]) ++ [y] := by
      rw [hco, hrev]
      simp [List.append_assoc]
    have hrs : rsplit2 s = [joinDots ((r :: v :: rs).reverse), x, y] := by
      unfold rsplit2
      rw [hrev]
    have hL : (r :: v :: rs).reverse ≠ [] := by simp
    have e1 : 1 < (((r :: v :: rs).reverse ++ [x]) ++ [y]).length := by
      simp
    have e2 : 1 < ((r :: v :: rs).reverse ++ [x]).length := by
      simp
    simp only [parse_name, parseNameSpec, strippedParts, cmpSuffix, hrs, hc,
      List.getLastD_concat, List.dropLast_concat, e1, e2]
    split_ifs <;>
      simp_all [exceptToOption, joinDots, joinDots_snoc3]

/-- C3 (amended): parse_name follows the naming convention over the full
list of dot-separated components with one correction: a multi-component
name whose last remaining component is not a registered serialization
format raises CommandError rather than yielding a triple; only a dot-free
name with no recognized suffixes yields (name, None, None).  Formally, the
triple parse_name yields (none when it raises) is exactly the one the
convention prescribes. -/
theorem parse_name_follows_convention (fmts : List String) (b : Bool)
    (s : String) :
    exceptToOption (parse_name fmts b s) = parseNameSpec fmts b s :=
  parse_name_spec_eq fmts b s

lemma find_fixtures_ok_ne_nil (loader : Loader) (env : Env) (label : String)
    (files : List (String × String × String))
    (h : find_fixtures loader env label = Except.ok files) : files ≠ [] := by
  unfold find_fixtures at h
  cases hp : parse_name env.serialization_formats env.hasBz2 label with
  | error e => rw [hp] at h; exact Except.noConfusion h
  | ok t =>
      obtain ⟨name, serFmt, cmpFmt⟩ := t
      rw [hp] at h
      dsimp only at h
      cases hf : findInDirs env
          (targetsFor loader env (resolveDirs env name).2 serFmt cmpFmt)
          (resolveDirs env name).2 (resolveDirs env name).1 with
      | error e => rw [hf] at h; exact Except.noConfusion h
      | ok fs =>
          rw [hf] at h
          dsimp only at h
          by_cases hnil : fs = []
          · rw [if_pos hnil] at h; exact Except.noConfusion h
          · rw [if_neg hnil] at h
            cases h
            exact hnil

lemma loaddata_earlyReturn_iff (loader : Loader) (env : Env)
    (labels : List String) :
    (loaddata loader env labels).earlyReturn = true ↔
      ((earlyLoop loader env labels).2.1 = none ∧
       (earlyLoop loader env labels).2.2 = false) := by
  unfold loaddata
  rcases he : earlyLoop loader env labels with ⟨evs, err, prc⟩
  cases err with
  | some e => simp
  | none =>
      cases prc with
      | false => simp
      | true =>
          dsimp only
          rcases ho : (loadLabels loader env labels ⟨0, 0, 0, []⟩).err with _ | e
          · rcases hc : env.checkConstraintsResult
                ((loadLabels loader env labels ⟨0, 0, 0, []⟩).st.models.map
                  (fun m => m.dbTable)) with _ | m
            · simp [ho, hc]
            · simp [ho, hc]
          · simp [ho]

/-- Counterexample to the second half of C9 as stated: loaddata invoked on
an empty fixture label list does take the early-return branch (no label
yields fixtures, vacuously), so the branch is not unreachable. -/
theorem loaddata_empty_labels_early_return :
    (loaddata (⟨"default", 0, false, [], [], ""⟩ : Loader)
      (⟨["json"], false, [], fun _ => [], fun _ _ => [], fun _ _ => true,
        fun _ _ => none, fun _ => none, fun _ => none, fun _ => []⟩ : Env)
      []).earlyReturn = true := rfl

/-- C9 (amended): find_fixtures never returns an empty list: it returns a
non-empty list or raises; consequently, for every non-empty label list the
early-return branch of loaddata is not taken.  (The branch is reached
exactly when the label list itself is empty, and loaddata is only invoked
on non-empty label lists.) -/
theorem find_fixtures_nonempty_no_early_return :
    (∀ (loader : Loader) (env : Env) (label : String)
        (files : List (String × String × String)),
      find_fixtures loader env label = Except.ok files → files ≠ []) ∧
    (∀ (loader : Loader) (env : Env) (labels : List String),
      labels ≠ [] → (loaddata loader env labels).earlyReturn = false) := by
  refine ⟨find_fixtures_ok_ne_nil, ?_⟩
  intro loader env labels hne
  cases labels with
  | nil => exact absurd rfl hne
  | cons l rest =>
      rw [← Bool.not_eq_true, loaddata_earlyReturn_iff]
      unfold earlyLoop
      cases hf : find_fixtures loader env l with
      | error e => simp [hf]
      | ok files =>
          have hlen : files.length ≠ 0 := by
            simpa using find_fixtures_ok_ne_nil loader env l files hf
          simp [hf, hlen]

/-- A concrete loader for the witnesses: the fields load sets. -/
def wLoader : Loader := ⟨"default", 0, false, [], [], ""⟩

/-- A concrete environment in which the basic form data fixture is found
and loading it deserializes one object that saves successfully. -/
def wEnv : Env :=
  ⟨["json"], false, [],
   fun _ => ["/fixtures/initial-required-data/form_data.json"],
   fun _ _ => [⟨⟨"dataentry", "FormType", "dataentry_formtype", "dataentry"⟩, 1⟩],
   fun _ _ => true, fun _ _ => none, fun _ => none, fun _ => none, fun _ => []⟩

/-- The basic form data fixture label for a loader with empty BASE_DIR. -/
def wBasicLabel : String := "/fixtures/initial-required-data/form_data.json"

/-- Witness for C9 at a concrete loader, environment and label list. -/
theorem find_fixtures_nonempty_no_early_return_witness :
    ([("/fixtures/initial-required-data/form_data.json",
       "/fixtures/initial-required-data", "form_data")] :
      List (String × String × String)) ≠ [] ∧
    (loaddata wLoader wEnv [wBasicLabel]).earlyReturn = false :=
  ⟨find_fixtures_nonempty_no_early_return.1 wLoader wEnv wBasicLabel _ rfl,
   find_fixtures_nonempty_no_early_return.2 wLoader wEnv [wBasicLabel]
     (List.cons_ne_nil _ _)⟩

lemma findInDirs_dup (env : Env) (targets : List String) (fname : String) :
    ∀ dirs : List String,
      (∃ d ∈ dirs, 2 ≤ (dirMatches env targets fname d).length) →
      ∃ d ∈ dirs, findInDirs env targets fname dirs = Except.error
        (PyError.commandError ("Multiple fixtures named " ++ fname ++ " in " ++
          humanize d ++ ". Aborting.")) := by
  intro dirs
  induction dirs with
  | nil => rintro ⟨d, hd, _⟩; simp at hd
  | cons a rest ih =>
      rintro ⟨d, hd, hlen⟩
      by_cases ha : 1 < (dirMatches env targets fname a).length
      · refine ⟨a, by simp, ?_⟩
        unfold findInDirs
        rw [if_pos ha]
      · have hd2 : d ∈ rest := by
          rcases List.mem_cons.mp hd with h | h
          · subst h; exact absurd (by omega) ha
          · exact h
        obtain ⟨d3, hd3, herr⟩ := ih ⟨d, hd2, hlen⟩
        refine ⟨d3, by simp [hd3], ?_⟩
        unfold findInDirs
        rw [if_neg ha, herr]

lemma findInDirs_all_single (env : Env) (targets : List String)
    (fname : String) : ∀ dirs : List String,
      (∀ d ∈ dirs, (dirMatches env targets fname d).length ≤ 1) →
      findInDirs env targets fname dirs =
        Except.ok (dirs.flatMap (fun d => dirMatches env targets fname d)) := by
  intro dirs
  induction dirs with
  | nil => intro _; rfl
  | cons a rest ih =>
      intro h
      unfold findInDirs
      rw [if_neg (by have := h a (by simp); omega),
        ih (fun d hd => h d (by simp [hd]))]
      simp

/-- C7: when more than one candidate file in a single fixture directory
matches the label's target names, find_fixtures raises the
multiple-fixtures CommandError; when every directory holds at most one
match, duplicates across different directories do not raise and every
match is returned. -/
theorem find_fixtures_duplicates (loader : Loader) (env : Env)
    (label fixtureName fname : String) (serFmt cmpFmt : Option String)
    (dirs : List String)
    (hp : parse_name env.serialization_formats env.hasBz2 label =
      Except.ok (fixtureName, serFmt, cmpFmt))
    (hd : resolveDirs env fixtureName = (dirs, fname)) :
    ((∃ d ∈ dirs, 2 ≤ (dirMatches env
        (targetsFor loader env fname serFmt cmpFmt) fname d).length) →
      ∃ d ∈ dirs, find_fixtures loader env label = Except.error
        (PyError.commandError ("Multiple fixtures named " ++ fname ++ " in " ++
          humanize d ++ ". Aborting."))) ∧
    ((∀ d ∈ dirs, (dirMatches env
        (targetsFor loader env fname serFmt cmpFmt) fname d).length ≤ 1) →
      dirs.flatMap (fun d => dirMatches env
        (targetsFor loader env fname serFmt cmpFmt) fname d) ≠ [] →
      find_fixtures loader env label = Except.ok
        (dirs.flatMap (fun d => dirMatches env
          (targetsFor loader env fname serFmt cmpFmt) fname d))) := by
  constructor
  · intro h
    obtain ⟨d, hdm, herr⟩ :=
      findInDirs_dup env (targetsFor loader env fname serFmt cmpFmt) fname dirs h
    refine ⟨d, hdm, ?_⟩
    unfold find_fixtures
    rw [hp]
    dsimp only
    rw [hd]
    dsimp only
    rw [herr]
  · intro hall hne
    unfold find_fixtures
    rw [hp]
    dsimp only
    rw [hd]
    dsimp only
    rw [findInDirs_all_single env
      (targetsFor loader env fname serFmt cmpFmt) fname dirs hall]
    dsimp only
    rw [if_neg hne]

/-- An environment whose directory d1 holds two files matching the label x. -/
def wEnvDup : Env :=
  ⟨["json"], false, ["d1", "d2"],
   fun pat => if pat = "d1/x*" then ["d1/x.json", "d1/x.json.gz"] else ["d2/x.json"],
   fun _ _ => [], fun _ _ => true, fun _ _ => none, fun _ => none,
   fun _ => none, fun _ => []⟩

/-- An environment whose directories d1 and d2 each hold one file matching
the label x. -/
def wEnvTwo : Env :=
  ⟨["json"], false, ["d1", "d2"],
   fun pat => if pat = "d1/x*" then ["d1/x.json"] else ["d2/x.json"],
   fun _ _ => [], fun _ _ => true, fun _ _ => none, fun _ => none,
   fun _ => none, fun _ => []⟩

/-- Witness for C7: two matches in one directory abort with the
multiple-fixtures error; one match in each of two directories returns
both. -/
theorem find_fixtures_duplicates_witness :
    (∃ d ∈ ["d1", "d2"], find_fixtures wLoader wEnvDup "x" = Except.error
      (PyError.commandError ("Multiple fixtures named x in " ++ humanize d ++
        ". Aborting."))) ∧
    find_fixtures wLoader wEnvTwo "x" =
      Except.ok [("d1/x.json", "d1", "x"), ("d2/x.json", "d2", "x")] :=
  ⟨(find_fixtures_duplicates wLoader wEnvDup "x" "x" "x" none none
      ["d1", "d2"] rfl rfl).1 ⟨"d1", by simp, by decide⟩,
   (find_fixtures_duplicates wLoader wEnvTwo "x" "x" "x" none none
      ["d1", "d2"] rfl rfl).2 (by decide) (by decide)⟩

lemma mem_ite_singleton {α : Type} (P : Prop) [Decidable P] (x e : α)
    (h : e ∈ (if P then [x] else [])) : e = x := by
  split at h
  · simpa using h
  · simp at h

lemma getLastD_append_eq {α : Type} (a : α) (l1 l2 : List α) :
    (l1 ++ l2).getLastD a = l2.getLastD (l1.getLastD a) := by
  induction l1 generalizing a with
  | nil => rfl
  | cons b t ih =>
      rw [List.cons_append, List.getLastD_cons, ih b, List.getLastD_cons]

lemma getLastD_cons_mem {α : Type} :
    ∀ (t : List α) (a d : α), (a :: t).getLastD d ∈ a :: t
  | [], a, d => by simp [List.getLastD]
  | b :: u, a, d => by
      rw [List.getLastD_cons]
      exact List.mem_cons_of_mem a (getLastD_cons_mem u b a)

lemma chain_append_of {α : Type} {R : α → α → Prop} :
    ∀ (l1 : List α) (a : α) (l2 : List α), List.Chain R a l1 →
      List.Chain R (l1.getLastD a) l2 → List.Chain R a (l1 ++ l2)
  | [], _, _, _, h2 => h2
  | b :: t, a, l2, h1, h2 => by
      rcases List.chain_cons.mp h1 with ⟨hab, ht⟩
      rw [List.cons_append]
      exact List.chain_cons.mpr
        ⟨hab, chain_append_of t b l2 ht (by rwa [List.getLastD_cons] at h2)⟩

lemma runObjects_counts (loader : Loader) (env : Env) :
    ∀ (objs : List Obj) (oi li : Nat) (ms : List ModelClass), li ≤ oi →
      (runObjects loader env objs oi li ms).loadedIn ≤
        (runObjects loader env objs oi li ms).objectsIn := by
  intro objs
  induction objs with
  | nil => intro oi li ms h; simpa [runObjects] using h
  | cons o rest ih =>
      intro oi li ms h
      unfold runObjects
      split_ifs with h1 h2
      · exact ih _ _ _ (by omega)
      · cases hs : env.saveResult loader.usingDb o with
        | none => dsimp only; exact ih _ _ _ (by omega)
        | some m => dsimp only; omega
      · exact ih _ _ _ (by omega)

lemma runObjects_events_save (loader : Loader) (env : Env) :
    ∀ (objs : List Obj) (oi li : Nat) (ms : List ModelClass),
      ∀ e ∈ (runObjects loader env objs oi li ms).events,
        ∃ o, e = Event.saveObj o := by
  intro objs
  induction objs with
  | nil => intro oi li ms e he; simp [runObjects] at he
  | cons o rest ih =>
      intro oi li ms e he
      unfold runObjects at he
      split_ifs at he with h1 h2
      · exact ih _ _ _ e he
      · cases hs : env.saveResult loader.usingDb o with
        | none =>
            rw [hs] at he
            dsimp only at he
            rcases List.mem_cons.mp he with rfl | he2
            · exact ⟨o, rfl⟩
            · exact ih _ _ _ e he2
        | some m =>
            rw [hs] at he
            dsimp only at he
            rcases List.mem_cons.mp he with rfl | he2
            · exact ⟨o, rfl⟩
            · simp at he2
      · exact ih _ _ _ e he

lemma insertModel_mem (m c : ModelClass) (ms : List ModelClass) :
    m ∈ insertModel c ms ↔ m = c ∨ m ∈ ms := by
  unfold insertModel
  split_ifs with h
  · constructor
    · exact Or.inr
    · rintro (rfl | hm)
      · exact h
      · exact hm
  · simp [or_comm]

lemma runObjects_models (loader : Loader) (env : Env) :
    ∀ (objs : List Obj) (oi li : Nat) (ms : List ModelClass) (m : ModelClass),
      (m ∈ (runObjects loader env objs oi li ms).models ↔
        m ∈ ms ∨ ∃ o, Event.saveObj o ∈ (runObjects loader env objs oi li ms).events ∧
          o.cls = m) := by
  intro objs
  induction objs with
  | nil => intro oi li ms m; simp [runObjects]
  | cons o rest ih =>
      intro oi li ms m
      unfold runObjects
      split_ifs with h1 h2
      · exact ih _ _ _ m
      · cases hs : env.saveResult loader.usingDb o with
        | none =>
            dsimp only
            rw [ih _ _ _ m, insertModel_mem]
            constructor
            · rintro ((rfl | hms) | ⟨o2, h2e, rfl⟩)
              · exact Or.inr ⟨o, List.mem_cons_self _ _, rfl⟩
              · exact Or.inl hms
              · exact Or.inr ⟨o2, List.mem_cons_of_mem _ h2e, rfl⟩
            · rintro (hms | ⟨o2, h2e, rfl⟩)
              · exact Or.inl (Or.inr hms)
              · rcases List.mem_cons.mp h2e with heq | h2e2
                · cases heq
                  exact Or.inl (Or.inl rfl)
                · exact Or.inr ⟨o2, h2e2, rfl⟩
        | some msg =>
            dsimp only
            rw [insertModel_mem]
            constructor
            · rintro (rfl | hms)
              · exact Or.inr ⟨o, by simp, rfl⟩
              · exact Or.inl hms
            · rintro (hms | ⟨o2, h2e, rfl⟩)
              · exact Or.inr hms
              · simp at h2e
                subst h2e
                exact Or.inl rfl
      · exact ih _ _ _ m

lemma loadFixtureFile_snaps (loader : Loader) (env : Env) (label : String)
    (st : LoadState) (file name : String) :
    List.Chain snapLe (cnt st) (loadFixtureFile loader env label st file name).snaps ∧
    cnt (loadFixtureFile loader env label st file name).st =
      (loadFixtureFile loader env label st file name).snaps.getLastD (cnt st) ∧
    (goodSnap (cnt st) →
      ∀ s ∈ (loadFixtureFile loader env label st file name).snaps, goodSnap s) := by
  unfold loadFixtureFile
  cases hp : parse_name env.serialization_formats env.hasBz2 (baseName file) with
  | error e => simp
  | ok parsed =>
      dsimp only
      cases ho : env.openResult file with
      | some m => simp
      | none =>
          dsimp only
          rcases hr : runObjects loader env
              (env.deserialize (serFmtFor loader label) file) 0 0 st.models with
            ⟨roi, rli, rms, revs, rerr⟩
          have hcnt := runObjects_counts loader env
            (env.deserialize (serFmtFor loader label) file) 0 0 st.models (le_refl 0)
          rw [hr] at hcnt
          dsimp only at hcnt
          cases rerr with
          | some e =>
              dsimp only
              refine ⟨List.chain_cons.mpr ⟨?_, List.Chain.nil⟩, rfl, ?_⟩
              · simp [cnt, snapLe]
              · intro hg s hs
                simp only [List.mem_singleton] at hs
                subst hs
                simpa [goodSnap, cnt] using hg
          | none =>
              dsimp only
              refine ⟨List.chain_cons.mpr ⟨?_, List.chain_cons.mpr ⟨?_, List.Chain.nil⟩⟩,
                rfl, ?_⟩
              · simp [cnt, snapLe]
              · simp only [cnt, snapLe]
                refine ⟨le_refl _, Nat.le_add_right _ _, Nat.le_add_right _ _⟩
              · intro hg s hs
                simp only [goodSnap, cnt] at hg ⊢
                rcases List.mem_cons.mp hs with rfl | hs2
                · simpa using hg
                · simp only [List.mem_singleton] at hs2
                  subst hs2
                  dsimp only [cnt]
                  omega

lemma loadFixtureFile_models (loader : Loader) (env : Env) (label : String)
    (st : LoadState) (file name : String) (m : ModelClass) :
    m ∈ (loadFixtureFile loader env label st file name).st.models ↔
      m ∈ st.models ∨ ∃ o, Event.saveObj o ∈
        (loadFixtureFile loader env label st file name).events ∧ o.cls = m := by
  unfold loadFixtureFile
  cases hp : parse_name env.serialization_formats env.hasBz2 (baseName file) with
  | error e => simp
  | ok parsed =>
      dsimp only
      cases ho : env.openResult file with
      | some m2 => simp
      | none =>
          dsimp only
          have hmodels := runObjects_models loader env
            (env.deserialize (serFmtFor loader label) file) 0 0 st.models m
          rcases hr : runObjects loader env
              (env.deserialize (serFmtFor loader label) file) 0 0 st.models with
            ⟨roi, rli, rms, revs, rerr⟩
          rw [hr] at hmodels
          dsimp only at hmodels
          cases rerr with
          | some e =>
              dsimp only
              rw [hmodels]
              simp
          | none =>
              dsimp only
              rw [hmodels]
              constructor
              · rintro (hm | ⟨o, ho2, rfl⟩)
                · exact Or.inl hm
                · exact Or.inr ⟨o, by simp [ho2], rfl⟩
              · rintro (hm | ⟨o, ho2, rfl⟩)
                · exact Or.inl hm
                · rcases List.mem_cons.mp ho2 with heq | ho3
                  · exact absurd heq (by simp)
                  · rcases List.mem_append.mp ho3 with ho4 | ho5
                    · exact Or.inr ⟨o, ho4, rfl⟩
                    · exact absurd (mem_ite_singleton _ _ _ ho5) (by simp)

lemma loadFixtureFile_deserialize (loader : Loader) (env : Env) (label : String)
    (st : LoadState) (file name : String) (l fmt f : String)
    (h : Event.deserializeCall l fmt f ∈
      (loadFixtureFile loader env label st file name).events) :
    l = label ∧ fmt = serFmtFor loader label := by
  unfold loadFixtureFile at h
  cases hp : parse_name env.serialization_formats env.hasBz2 (baseName file) with
  | error e => rw [hp] at h; simp at h
  | ok parsed =>
      rw [hp] at h
      dsimp only at h
      cases ho : env.openResult file with
      | some m2 => rw [ho] at h; simp at h
      | none =>
          rw [ho] at h
          dsimp only at h
          have hsave := runObjects_events_save loader env
            (env.deserialize (serFmtFor loader label) file) 0 0 st.models
          rcases hr : runObjects loader env
              (env.deserialize (serFmtFor loader label) file) 0 0 st.models with
            ⟨roi, rli, rms, revs, rerr⟩
          rw [hr] at h hsave
          dsimp only at h hsave
          cases rerr with
          | some e =>
              dsimp only at h
              rcases List.mem_cons.mp h with heq | h2
              · injection heq with h1 h2 h3
                exact ⟨h1, h2⟩
              · obtain ⟨o, ho2⟩ := hsave _ h2
                exact absurd ho2 (by simp)
          | none =>
              dsimp only at h
              rcases List.mem_cons.mp h with heq | h2
              · injection heq with h1 h2 h3
                exact ⟨h1, h2⟩
              · rcases List.mem_append.mp h2 with h3 | h4
                · obtain ⟨o, ho2⟩ := hsave _ h3
                  exact absurd ho2 (by simp)
                · exact absurd (mem_ite_singleton _ _ _ h4) (by simp)

lemma getLastD_self_or_mem {α : Type} (l : List α) (d : α) :
    l.getLastD d = d ∨ l.getLastD d ∈ l := by
  cases l with
  | nil => exact Or.inl rfl
  | cons a t => exact Or.inr (getLastD_cons_mem t a d)

lemma loadFixtureFiles_snaps (loader : Loader) (env : Env) (label : String) :
    ∀ (files : List (String × String × String)) (st : LoadState),
      List.Chain snapLe (cnt st) (loadFixtureFiles loader env label files st).snaps ∧
      cnt (loadFixtureFiles loader env label files st).st =
        (loadFixtureFiles loader env label files st).snaps.getLastD (cnt st) ∧
      (goodSnap (cnt st) →
        ∀ s ∈ (loadFixtureFiles loader env label files st).snaps, goodSnap s) := by
  intro files
  induction files with
  | nil =>
      intro st
      exact ⟨List.Chain.nil, rfl, fun _ s hs => absurd hs (by simp [loadFixtureFiles])⟩
  | cons f rest ih =>
      intro st
      obtain ⟨file, dir, name⟩ := f
      unfold loadFixtureFiles
      obtain ⟨h1, h2, h3⟩ := loadFixtureFile_snaps loader env label st file name
      rcases hout : loadFixtureFile loader env label st file name with
        ⟨oevs, osnaps, ost, oerr⟩
      rw [hout] at h1 h2 h3
      dsimp only at h1 h2 h3 ⊢
      cases oerr with
      | some e => exact ⟨h1, h2, h3⟩
      | none =>
          obtain ⟨g1, g2, g3⟩ := ih ost
          dsimp only
          refine ⟨?_, ?_, ?_⟩
          · exact chain_append_of _ _ _ h1 (by rw [← h2]; exact g1)
          · rw [getLastD_append_eq, ← h2, ← g2]
          · intro hg s hs
            rcases List.mem_append.mp hs with hs1 | hs2
            · exact h3 hg s hs1
            · refine g3 ?_ s hs2
              rw [h2]
              rcases getLastD_self_or_mem osnaps (cnt st) with he | hm
              · rw [he]; exact hg
              · exact h3 hg _ hm

lemma load_label_snaps (loader : Loader) (env : Env) (label : String)
    (st : LoadState) :
    List.Chain snapLe (cnt st) (load_label loader env label st).snaps ∧
    cnt (load_label loader env label st).st =
      (load_label loader env label st).snaps.getLastD (cnt st) ∧
    (goodSnap (cnt st) →
      ∀ s ∈ (load_label loader env label st).snaps, goodSnap s) := by
  unfold load_label
  cases hf : find_fixtures loader env label with
  | error e =>
      exact ⟨List.Chain.nil, rfl, fun _ s hs => absurd hs (by simp)⟩
  | ok files =>
      obtain ⟨h1, h2, h3⟩ := loadFixtureFiles_snaps loader env label files st
      exact ⟨h1, h2, h3⟩

lemma loadLabels_snaps (loader : Loader) (env : Env) :
    ∀ (labels : List String) (st : LoadState),
      List.Chain snapLe (cnt st) (loadLabels loader env labels st).snaps ∧
      cnt (loadLabels loader env labels st).st =
        (loadLabels loader env labels st).snaps.getLastD (cnt st) ∧
      (goodSnap (cnt st) →
        ∀ s ∈ (loadLabels loader env labels st).snaps, goodSnap s) := by
  intro labels
  induction labels with
  | nil =>
      intro st
      exact ⟨List.Chain.nil, rfl, fun _ s hs => absurd hs (by simp [loadLabels])⟩
  | cons label rest ih =>
      intro st
      unfold loadLabels
      obtain ⟨h1, h2, h3⟩ := load_label_snaps loader env label st
      rcases hout : load_label loader env label st with ⟨oevs, osnaps, ost, oerr⟩
      rw [hout] at h1 h2 h3
      dsimp only at h1 h2 h3 ⊢
      cases oerr with
      | some e => exact ⟨h1, h2, h3⟩
      | none =>
          obtain ⟨g1, g2, g3⟩ := ih ost
          dsimp only
          refine ⟨?_, ?_, ?_⟩
          · exact chain_append_of _ _ _ h1 (by rw [← h2]; exact g1)
          · rw [getLastD_append_eq, ← h2, ← g2]
          · intro hg s hs
            rcases List.mem_append.mp hs with hs1 | hs2
            · exact h3 hg s hs1
            · refine g3 ?_ s hs2
              rw [h2]
              rcases getLastD_self_or_mem osnaps (cnt st) with he | hm
              · rw [he]; exact hg
              · exact h3 hg _ hm

lemma loadFixtureFiles_models (loader : Loader) (env : Env) (label : String) :
    ∀ (files : List (String × String × String)) (st : LoadState) (m : ModelClass),
      m ∈ (loadFixtureFiles loader env label files st).st.models ↔
        m ∈ st.models ∨ ∃ o, Event.saveObj o ∈
          (loadFixtureFiles loader env label files st).events ∧ o.cls = m := by
  intro files
  induction files with
  | nil => intro st m; simp [loadFixtureFiles]
  | cons f rest ih =>
      intro st m
      obtain ⟨file, dir, name⟩ := f
      unfold loadFixtureFiles
      have hfm := loadFixtureFile_models loader env label st file name m
      rcases hout : loadFixtureFile loader env label st file name with
        ⟨oevs, osnaps, ost, oerr⟩
      rw [hout] at hfm
      dsimp only at hfm ⊢
      cases oerr with
      | some e => exact hfm
      | none =>
          dsimp only
          rw [ih ost m, hfm]
          constructor
          · rintro ((hm | ⟨o, h, rfl⟩) | ⟨o, h, rfl⟩)
            · exact Or.inl hm
            · exact Or.inr ⟨o, List.mem_append.mpr (Or.inl h), rfl⟩
            · exact Or.inr ⟨o, List.mem_append.mpr (Or.inr h), rfl⟩
          · rintro (hm | ⟨o, h, rfl⟩)
            · exact Or.inl (Or.inl hm)
            · rcases List.mem_append.mp h with h1 | h2
              · exact Or.inl (Or.inr ⟨o, h1, rfl⟩)
              · exact Or.inr ⟨o, h2, rfl⟩

lemma load_label_models (loader : Loader) (env : Env) (label : String)
    (st : LoadState) (m : ModelClass) :
    m ∈ (load_label loader env label st).st.models ↔
      m ∈ st.models ∨ ∃ o, Event.saveObj o ∈
        (load_label loader env label st).events ∧ o.cls = m := by
  unfold load_label
  cases hf : find_fixtures loader env label with
  | error e => simp
  | ok files =>
      dsimp only
      rw [loadFixtureFiles_models loader env label files st m]
      constructor
      · rintro (hm | ⟨o, h, rfl⟩)
        · exact Or.inl hm
        · exact Or.inr ⟨o, List.mem_cons_of_mem _ h, rfl⟩
      · rintro (hm | ⟨o, h, rfl⟩)
        · exact Or.inl hm
        · rcases List.mem_cons.mp h with heq | h2
          · exact absurd heq (by simp)
          · exact Or.inr ⟨o, h2, rfl⟩

lemma loadLabels_models (loader : Loader) (env : Env) :
    ∀ (labels : List String) (st : LoadState) (m : ModelClass),
      m ∈ (loadLabels loader env labels st).st.models ↔
        m ∈ st.models ∨ ∃ o, Event.saveObj o ∈
          (loadLabels loader env labels st).events ∧ o.cls = m := by
  intro labels
  induction labels with
  | nil => intro st m; simp [loadLabels]
  | cons label rest ih =>
      intro st m
      unfold loadLabels
      have hlm := load_label_models loader env label st m
      rcases hout : load_label loader env label st with ⟨oevs, osnaps, ost, oerr⟩
      rw [hout] at hlm
      dsimp only at hlm ⊢
      cases oerr with
      | some e => exact hlm
      | none =>
          dsimp only
          rw [ih ost m, hlm]
          constructor
          · rintro ((hm | ⟨o, h, rfl⟩) | ⟨o, h, rfl⟩)
            · exact Or.inl hm
            · exact Or.inr ⟨o, List.mem_append.mpr (Or.inl h), rfl⟩
            · exact Or.inr ⟨o, List.mem_append.mpr (Or.inr h), rfl⟩
          · rintro (hm | ⟨o, h, rfl⟩)
            · exact Or.inl (Or.inl hm)
            · rcases List.mem_append.mp h with h1 | h2
              · exact Or.inl (Or.inr ⟨o, h1, rfl⟩)
              · exact Or.inr ⟨o, h2, rfl⟩

lemma loadFixtureFiles_deserialize (loader : Loader) (env : Env) (label : String) :
    ∀ (files : List (String × String × String)) (st : LoadState) (l fmt f : String),
      Event.deserializeCall l fmt f ∈ (loadFixtureFiles loader env label files st).events →
      l = label ∧ fmt = serFmtFor loader label := by
  intro files
  induction files with
  | nil => intro st l fmt f h; simp [loadFixtureFiles] at h
  | cons fd rest ih =>
      intro st l fmt f h
      obtain ⟨file, dir, name⟩ := fd
      unfold loadFixtureFiles at h
      rcases hout : loadFixtureFile loader env label st file name with
        ⟨oevs, osnaps, ost, oerr⟩
      rw [hout] at h
      dsimp only at h
      cases oerr with
      | some e =>
          dsimp only at h
          have := loadFixtureFile_deserialize loader env label st file name l fmt f
          rw [hout] at this
          exact this h
      | none =>
          dsimp only at h
          rcases List.mem_append.mp h with h1 | h2
          · have := loadFixtureFile_deserialize loader env label st file name l fmt f
            rw [hout] at this
            exact this h1
          · exact ih ost l fmt f h2

lemma load_label_deserialize (loader : Loader) (env : Env) (label : String)
    (st : LoadState) (l fmt f : String)
    (h : Event.deserializeCall l fmt f ∈ (load_label loader env label st).events) :
    l = label ∧ fmt = serFmtFor loader label := by
  unfold load_label at h
  cases hf : find_fixtures loader env label with
  | error e => rw [hf] at h; simp at h
  | ok files =>
      rw [hf] at h
      dsimp only at h
      rcases List.mem_cons.mp h with heq | h2
      · exact absurd heq (by simp)
      · exact loadFixtureFiles_deserialize loader env label files st l fmt f h2

lemma loadLabels_deserialize (loader : Loader) (env : Env) :
    ∀ (labels : List String) (st : LoadState) (l fmt f : String),
      Event.deserializeCall l fmt f ∈ (loadLabels loader env labels st).events →
      fmt = serFmtFor loader l := by
  intro labels
  induction labels with
  | nil => intro st l fmt f h; simp [loadLabels] at h
  | cons label rest ih =>
      intro st l fmt f h
      unfold loadLabels at h
      rcases hout : load_label loader env label st with ⟨oevs, osnaps, ost, oerr⟩
      rw [hout] at h
      dsimp only at h
      cases oerr with
      | some e =>
          dsimp only at h
          have hd := load_label_deserialize loader env label st l fmt f (by rw [hout]; exact h)
          obtain ⟨rfl, hfmt⟩ := hd
          exact hfmt
      | none =>
          dsimp only at h
          rcases List.mem_append.mp h with h1 | h2
          · have hd := load_label_deserialize loader env label st l fmt f (by rw [hout]; exact h1)
            obtain ⟨rfl, hfmt⟩ := hd
            exact hfmt
          · exact ih ost l fmt f h2

lemma earlyLoop_events_find (loader : Loader) (env : Env) :
    ∀ labels : List String, ∀ e ∈ (earlyLoop loader env labels).1,
      ∃ l, e = Event.findFixturesCall l := by
  intro labels
  induction labels with
  | nil => intro e he; simp [earlyLoop] at he
  | cons l rest ih =>
      intro e he
      unfold earlyLoop at he
      cases hf : find_fixtures loader env l with
      | error e2 =>
          rw [hf] at he
          dsimp only at he
          exact ⟨l, by simpa using he⟩
      | ok files =>
          rw [hf] at he
          dsimp only at he
          split_ifs at he with hlen
          · exact ⟨l, by simpa using he⟩
          · rcases List.mem_cons.mp he with rfl | he2
            · exact ⟨l, rfl⟩
            · exact ih e he2

lemma loaddata_events_eq (loader : Loader) (env : Env) (labels : List String) :
    ∃ tail : List Event,
      ((loaddata loader env labels).events = (earlyLoop loader env labels).1 ∨
       (loaddata loader env labels).events =
         (earlyLoop loader env labels).1 ++ [Event.enterDisabled] ++
         (loadLabels loader env labels ⟨0, 0, 0, []⟩).events ++
         [Event.exitDisabled] ++ tail) ∧
      (∀ e ∈ tail, (∃ ts, e = Event.checkConstraints ts) ∨
        (∃ sql, e = Event.resetSequences sql) ∨
        ∃ a b c, e = Event.report a b c) := by
  unfold loaddata
  rcases he : earlyLoop loader env labels with ⟨evs, err, prc⟩
  cases err with
  | some e => exact ⟨[], Or.inl rfl, by simp⟩
  | none =>
      cases prc with
      | false => exact ⟨[], Or.inl rfl, by simp⟩
      | true =>
          dsimp only
          rcases ho : loadLabels loader env labels ⟨0, 0, 0, []⟩ with
            ⟨oevs, osnaps, ost, oerr⟩
          cases oerr with
          | some e =>
              refine ⟨[], Or.inr ?_, by simp⟩
              simp
          | none =>
              rcases hc : env.checkConstraintsResult
                  (ost.models.map (fun m => m.dbTable)) with _ | m
              · simp only [hc]
                refine ⟨Event.checkConstraints (ost.models.map (fun m => m.dbTable)) ::
                  ((if 0 < ost.loadedObjectCount then
                      (if env.sequenceResetSql ost.models ≠ [] then
                        [Event.resetSequences (env.sequenceResetSql ost.models)]
                       else [])
                    else []) ++
                   (if 1 ≤ loader.verbosity then
                      [Event.report ost.loadedObjectCount ost.fixtureObjectCount
                        ost.fixtureCount]
                    else [])), Or.inr ?_, ?_⟩
                · simp
                · intro e hev
                  rcases List.mem_cons.mp hev with rfl | hev2
                  · exact Or.inl ⟨_, rfl⟩
                  · rcases List.mem_append.mp hev2 with hev3 | hev4
                    · by_cases hA : 0 < ost.loadedObjectCount
                      · rw [if_pos hA] at hev3
                        have := mem_ite_singleton _ _ _ hev3
                        exact Or.inr (Or.inl ⟨_, this⟩)
                      · rw [if_neg hA] at hev3
                        simp at hev3
                    · have := mem_ite_singleton _ _ _ hev4
                      exact Or.inr (Or.inr ⟨_, _, _, this⟩)
              · simp only [hc]
                refine ⟨[Event.checkConstraints (ost.models.map (fun m => m.dbTable))],
                  Or.inr ?_, ?_⟩
                · simp
                · intro e hev
                  rcases List.mem_singleton.mp hev with rfl
                  exact Or.inl ⟨_, rfl⟩

/-- C1: for every deserializer invocation recorded in a loaddata run, the
serialization format passed is determined solely by the fixture label
being loaded: json when the label equals the basic form data file,
form_data_tag for every other label, regardless of the serializer suffix
parsed from the file name. -/
theorem deserializer_format_from_label (loader : Loader) (env : Env)
    (labels : List String) (l fmt f : String)
    (h : Event.deserializeCall l fmt f ∈ (loaddata loader env labels).events) :
    fmt = if l = basicFormDataFile loader.baseDir then "json"
      else "form_data_tag" := by
  obtain ⟨tail, hdisj, htail⟩ := loaddata_events_eq loader env labels
  rcases hdisj with heq | heq
  · rw [heq] at h
    obtain ⟨l2, hl2⟩ := earlyLoop_events_find loader env labels _ h
    exact absurd hl2 (by simp)
  · rw [heq] at h
    simp only [List.mem_append] at h
    rcases h with ((((h1 | h2) | h3) | h4) | h5)
    · obtain ⟨l2, hl2⟩ := earlyLoop_events_find loader env labels _ h1
      exact absurd hl2 (by simp)
    · exact absurd (List.mem_singleton.mp h2) (by simp)
    · have := loadLabels_deserialize loader env labels ⟨0, 0, 0, []⟩ l fmt f h3
      simpa [serFmtFor] using this
    · exact absurd (List.mem_singleton.mp h4) (by simp)
    · rcases htail _ h5 with ⟨ts, hts⟩ | ⟨sql, hsql⟩ | ⟨a, b, c, habc⟩
      · exact absurd hts (by simp)
      · exact absurd hsql (by simp)
      · exact absurd habc (by simp)

/-- Witness for C1: a run loading the basic form data fixture records a
deserializer call whose format is json. -/
theorem deserializer_format_from_label_witness :
    Event.deserializeCall wBasicLabel "json"
      "/fixtures/initial-required-data/form_data.json" ∈
      (loaddata wLoader wEnv [wBasicLabel]).events ∧
    "json" = (if wBasicLabel = basicFormDataFile wLoader.baseDir then "json"
      else "form_data_tag") :=
  ⟨by decide,
   deserializer_format_from_label wLoader wEnv [wBasicLabel] wBasicLabel "json"
     "/fixtures/initial-required-data/form_data.json" (by decide)⟩

/-- C10: every loaddata run resets the three counters to zero, the
counters only ever increase from snapshot to snapshot during the run, and
at every snapshot the loaded-object count is at most the fixture-object
count. -/
theorem loaddata_counters_invariant (loader : Loader) (env : Env)
    (labels : List String) :
    ∃ rest, (loaddata loader env labels).snaps = ((0, 0, 0) : Snap) :: rest ∧
      List.Chain snapLe ((0, 0, 0) : Snap) rest ∧
      ∀ s ∈ (loaddata loader env labels).snaps, goodSnap s := by
  unfold loaddata
  rcases he : earlyLoop loader env labels with ⟨evs, err, prc⟩
  cases err with
  | some e =>
      refine ⟨[], rfl, List.Chain.nil, ?_⟩
      intro s hs
      simp only [List.mem_singleton] at hs
      subst hs
      exact Nat.le.refl
  | none =>
      cases prc with
      | false =>
          refine ⟨[], rfl, List.Chain.nil, ?_⟩
          intro s hs
          simp at hs
          subst hs
          exact Nat.le.refl
      | true =>
          dsimp only
          rcases ho : loadLabels loader env labels ⟨0, 0, 0, []⟩ with
            ⟨oevs, osnaps, ost, oerr⟩
          have h := loadLabels_snaps loader env labels ⟨0, 0, 0, []⟩
          rw [ho] at h
          obtain ⟨h1, h2, h3⟩ := h
          dsimp only at h1 h2 h3
          have hg0 : goodSnap (cnt (⟨0, 0, 0, []⟩ : LoadState)) := Nat.le.refl
          cases oerr with
          | some e =>
              refine ⟨osnaps, rfl, h1, ?_⟩
              intro s hs
              rcases List.mem_cons.mp hs with rfl | hs2
              · exact Nat.le.refl
              · exact h3 hg0 s hs2
          | none =>
              rcases hc : env.checkConstraintsResult
                  (ost.models.map (fun m => m.dbTable)) with _ | m
              · simp only [hc]
                refine ⟨osnaps, rfl, h1, ?_⟩
                intro s hs
                rcases List.mem_cons.mp hs with rfl | hs2
                · exact Nat.le.refl
                · exact h3 hg0 s hs2
              · simp only [hc]
                refine ⟨osnaps, rfl, h1, ?_⟩
                intro s hs
                rcases List.mem_cons.mp hs with rfl | hs2
                · exact Nat.le.refl
                · exact h3 hg0 s hs2

lemma loaddata_eq_earlyErr (loader : Loader) (env : Env) (labels : List String)
    (evs : List Event) (e : PyError) (prc : Bool)
    (he : earlyLoop loader env labels = (evs, some e, prc)) :
    loaddata loader env labels =
      ⟨evs, [((0, 0, 0) : Snap)], ⟨0, 0, 0, []⟩, some e, false⟩ := by
  unfold loaddata
  rw [he]
  rfl

lemma loaddata_eq_early (loader : Loader) (env : Env) (labels : List String)
    (evs : List Event) (he : earlyLoop loader env labels = (evs, none, false)) :
    loaddata loader env labels =
      ⟨evs, [((0, 0, 0) : Snap)], ⟨0, 0, 0, []⟩, none, true⟩ := by
  unfold loaddata
  rw [he]
  rfl

lemma loaddata_eq_labelErr (loader : Loader) (env : Env) (labels : List String)
    (evs : List Event) (e : PyError)
    (he : earlyLoop loader env labels = (evs, none, true))
    (ho : (loadLabels loader env labels ⟨0, 0, 0, []⟩).err = some e) :
    loaddata loader env labels =
      ⟨evs ++ [Event.enterDisabled] ++
         (loadLabels loader env labels ⟨0, 0, 0, []⟩).events ++ [Event.exitDisabled],
       ((0, 0, 0) : Snap) :: (loadLabels loader env labels ⟨0, 0, 0, []⟩).snaps,
       (loadLabels loader env labels ⟨0, 0, 0, []⟩).st, some e, false⟩ := by
  unfold loaddata
  rw [he]
  dsimp only
  rcases hox : loadLabels loader env labels ⟨0, 0, 0, []⟩ with ⟨oevs, osnaps, ost, oerr⟩
  rw [hox] at ho
  dsimp only at ho
  subst ho
  rfl

lemma loaddata_eq_checkErr (loader : Loader) (env : Env) (labels : List String)
    (evs : List Event) (m : String)
    (he : earlyLoop loader env labels = (evs, none, true))
    (ho : (loadLabels loader env labels ⟨0, 0, 0, []⟩).err = none)
    (hc : env.checkConstraintsResult
      ((loadLabels loader env labels ⟨0, 0, 0, []⟩).st.models.map
        (fun m2 => m2.dbTable)) = some m) :
    loaddata loader env labels =
      ⟨evs ++ [Event.enterDisabled] ++
         (loadLabels loader env labels ⟨0, 0, 0, []⟩).events ++
         [Event.exitDisabled,
          Event.checkConstraints
            ((loadLabels loader env labels ⟨0, 0, 0, []⟩).st.models.map
              (fun m2 => m2.dbTable))],
       ((0, 0, 0) : Snap) :: (loadLabels loader env labels ⟨0, 0, 0, []⟩).snaps,
       (loadLabels loader env labels ⟨0, 0, 0, []⟩).st,
       some (PyError.otherError ("Problem installing fixtures: " ++ m)), false⟩ := by
  unfold loaddata
  rw [he]
  dsimp only
  rcases hox : loadLabels loader env labels ⟨0, 0, 0, []⟩ with ⟨oevs, osnaps, ost, oerr⟩
  rw [hox] at ho hc
  dsimp only at ho hc
  subst ho
  dsimp only
  rw [hc]
  rfl

lemma loaddata_eq_success (loader : Loader) (env : Env) (labels : List String)
    (evs : List Event)
    (he : earlyLoop loader env labels = (evs, none, true))
    (ho : (loadLabels loader env labels ⟨0, 0, 0, []⟩).err = none)
    (hc : env.checkConstraintsResult
      ((loadLabels loader env labels ⟨0, 0, 0, []⟩).st.models.map
        (fun m2 => m2.dbTable)) = none) :
    loaddata loader env labels =
      ⟨evs ++ [Event.enterDisabled] ++
         (loadLabels loader env labels ⟨0, 0, 0, []⟩).events ++
         [Event.exitDisabled,
          Event.checkConstraints
            ((loadLabels loader env labels ⟨0, 0, 0, []⟩).st.models.map
              (fun m2 => m2.dbTable))] ++
         (if 0 < (loadLabels loader env labels ⟨0, 0, 0, []⟩).st.loadedObjectCount then
            (if env.sequenceResetSql
                (loadLabels loader env labels ⟨0, 0, 0, []⟩).st.models ≠ [] then
              [Event.resetSequences (env.sequenceResetSql
                (loadLabels loader env labels ⟨0, 0, 0, []⟩).st.models)]
             else [])
          else []) ++
         (if 1 ≤ loader.verbosity then
            [Event.report
              (loadLabels loader env labels ⟨0, 0, 0, []⟩).st.loadedObjectCount
              (loadLabels loader env labels ⟨0, 0, 0, []⟩).st.fixtureObjectCount
              (loadLabels loader env labels ⟨0, 0, 0, []⟩).st.fixtureCount]
          else []),
       ((0, 0, 0) : Snap) :: (loadLabels loader env labels ⟨0, 0, 0, []⟩).snaps,
       (loadLabels loader env labels ⟨0, 0, 0, []⟩).st, none, false⟩ := by
  unfold loaddata
  rw [he]
  dsimp only
  rcases hox : loadLabels loader env labels ⟨0, 0, 0, []⟩ with ⟨oevs, osnaps, ost, oerr⟩
  rw [hox] at ho hc
  dsimp only at ho hc
  subst ho
  dsimp only
  rw [hc]
  rfl

/-- C2: a loaddata run that completes without an exception and without the
early return proceeds in order: label-resolution events, then the
constraint-checks-disabled block containing every object save of the run,
then the constraint re-check on exactly the tables of the loaded models,
then the sequence reset (present only when at least one object was
loaded), and finally the count report (present exactly at verbosity one or
higher), which closes the trace. -/
theorem loaddata_step_order (loader : Loader) (env : Env) (labels : List String)
    (hok : (loaddata loader env labels).err = none)
    (hrun : (loaddata loader env labels).earlyReturn = false) :
    ∃ pre mid resetEvs reportEvs,
      (loaddata loader env labels).events =
        pre ++ [Event.enterDisabled] ++ mid ++
        [Event.exitDisabled,
         Event.checkConstraints
           ((loaddata loader env labels).finalState.models.map (fun m => m.dbTable))] ++
        resetEvs ++ reportEvs ∧
      (∀ e ∈ pre, ∃ l, e = Event.findFixturesCall l) ∧
      (∀ m, m ∈ (loaddata loader env labels).finalState.models ↔
        ∃ o, Event.saveObj o ∈ mid ∧ o.cls = m) ∧
      (∀ o, Event.saveObj o ∈ (loaddata loader env labels).events →
        Event.saveObj o ∈ mid) ∧
      (resetEvs = [] ∨ ∃ sql, resetEvs = [Event.resetSequences sql] ∧
        0 < (loaddata loader env labels).finalState.loadedObjectCount) ∧
      (if 1 ≤ loader.verbosity then
        reportEvs = [Event.report
          (loaddata loader env labels).finalState.loadedObjectCount
          (loaddata loader env labels).finalState.fixtureObjectCount
          (loaddata loader env labels).finalState.fixtureCount]
       else reportEvs = []) := by
  rcases he : earlyLoop loader env labels with ⟨evs, err, prc⟩
  cases err with
  | some e =>
      rw [loaddata_eq_earlyErr loader env labels evs e prc he] at hok
      simp at hok
  | none =>
      cases prc with
      | false =>
          rw [loaddata_eq_early loader env labels evs he] at hrun
          simp at hrun
      | true =>
          rcases hoerr : (loadLabels loader env labels ⟨0, 0, 0, []⟩).err with _ | e
          · rcases hcc : env.checkConstraintsResult
                ((loadLabels loader env labels ⟨0, 0, 0, []⟩).st.models.map
                  (fun m2 => m2.dbTable)) with _ | m
            · have heq := loaddata_eq_success loader env labels evs he hoerr hcc
              rw [heq]
              dsimp only
              have hpre := earlyLoop_events_find loader env labels
              rw [he] at hpre
              refine ⟨evs, (loadLabels loader env labels ⟨0, 0, 0, []⟩).events,
                (if 0 < (loadLabels loader env labels ⟨0, 0, 0, []⟩).st.loadedObjectCount then
                   (if env.sequenceResetSql
                       (loadLabels loader env labels ⟨0, 0, 0, []⟩).st.models ≠ [] then
                     [Event.resetSequences (env.sequenceResetSql
                       (loadLabels loader env labels ⟨0, 0, 0, []⟩).st.models)]
                    else [])
                 else []),
                (if 1 ≤ loader.verbosity then
                   [Event.report
                     (loadLabels loader env labels ⟨0, 0, 0, []⟩).st.loadedObjectCount
                     (loadLabels loader env labels ⟨0, 0, 0, []⟩).st.fixtureObjectCount
                     (loadLabels loader env labels ⟨0, 0, 0, []⟩).st.fixtureCount]
                 else []), ?_, ?_, ?_, ?_, ?_, ?_⟩
              · simp [List.append_assoc]
              · exact fun e2 he2 => hpre e2 he2
              · intro m
                simpa using loadLabels_models loader env labels ⟨0, 0, 0, []⟩ m
              · intro o hoev
                rcases List.mem_append.mp hoev with hA | hB
                · rcases List.mem_append.mp hA with hA1 | hA2
                  · rcases List.mem_append.mp hA1 with hA3 | hA4
                    · rcases List.mem_append.mp hA3 with hA5 | hA6
                      · rcases List.mem_append.mp hA5 with hA7 | hA8
                        · obtain ⟨l2, hl2⟩ := hpre _ hA7
                          exact absurd hl2 (by simp)
                        · exact absurd (List.mem_singleton.mp hA8) (by simp)
                      · exact hA6
                    · rcases List.mem_cons.mp hA4 with heq2 | h7
                      · exact absurd heq2 (by simp)
                      · exact absurd (List.mem_singleton.mp h7) (by simp)
                  · by_cases hAc : 0 <
                        (loadLabels loader env labels ⟨0, 0, 0, []⟩).st.loadedObjectCount
                    · rw [if_pos hAc] at hA2
                      exact absurd (mem_ite_singleton _ _ _ hA2) (by simp)
                    · rw [if_neg hAc] at hA2
                      simp at hA2
                · exact absurd (mem_ite_singleton _ _ _ hB) (by simp)
              · by_cases hA : 0 <
                    (loadLabels loader env labels ⟨0, 0, 0, []⟩).st.loadedObjectCount
                · by_cases hB : env.sequenceResetSql
                      (loadLabels loader env labels ⟨0, 0, 0, []⟩).st.models ≠ []
                  · rw [if_pos hA, if_pos hB]
                    exact Or.inr ⟨_, rfl, hA⟩
                  · rw [if_pos hA, if_neg hB]
                    exact Or.inl rfl
                · rw [if_neg hA]
                  exact Or.inl rfl
              · split_ifs
                · rfl
                · rfl
            · rw [loaddata_eq_checkErr loader env labels evs m he hoerr hcc] at hok
              simp at hok
          · rw [loaddata_eq_labelErr loader env labels evs e he hoerr] at hok
            simp at hok

/-- Witness for C2: the concrete run loading the basic form data fixture
completes successfully and exhibits the claimed phase order. -/
theorem loaddata_step_order_witness :
    (loaddata wLoader wEnv [wBasicLabel]).err = none ∧
    (loaddata wLoader wEnv [wBasicLabel]).earlyReturn = false ∧
    ∃ pre mid resetEvs reportEvs,
      (loaddata wLoader wEnv [wBasicLabel]).events =
        pre ++ [Event.enterDisabled] ++ mid ++
        [Event.exitDisabled,
         Event.checkConstraints
           ((loaddata wLoader wEnv [wBasicLabel]).finalState.models.map
             (fun m => m.dbTable))] ++
        resetEvs ++ reportEvs ∧
      (∀ e ∈ pre, ∃ l, e = Event.findFixturesCall l) ∧
      (∀ m, m ∈ (loaddata wLoader wEnv [wBasicLabel]).finalState.models ↔
        ∃ o, Event.saveObj o ∈ mid ∧ o.cls = m) ∧
      (∀ o, Event.saveObj o ∈ (loaddata wLoader wEnv [wBasicLabel]).events →
        Event.saveObj o ∈ mid) ∧
      (resetEvs = [] ∨ ∃ sql, resetEvs = [Event.resetSequences sql] ∧
        0 < (loaddata wLoader wEnv [wBasicLabel]).finalState.loadedObjectCount) ∧
      (if 1 ≤ wLoader.verbosity then
        reportEvs = [Event.report
          (loaddata wLoader wEnv [wBasicLabel]).finalState.loadedObjectCount
          (loaddata wLoader wEnv [wBasicLabel]).finalState.fixtureObjectCount
          (loaddata wLoader wEnv [wBasicLabel]).finalState.fixtureCount]
       else reportEvs = []) :=
  ⟨rfl, rfl, loaddata_step_order wLoader wEnv [wBasicLabel] rfl rfl⟩
